import Mathlib

/-!
Verification of the checkout/return consistency engine of the
Library-Management-System-API repository (Django application).

The embedding below translates the relevant code:
  * `library/models.py`   — `Book` (fields, `clean`, `save`), `Checkout`
    (fields, `Meta.unique_together`, `clean`, `save`, `is_overdue`,
    `days_overdue`);
  * `library/views.py`    — `BookViewSet.checkout`, `BookViewSet.return_book`;
  * `library/signals.py`  — `update_book_availability_on_checkout`,
    `update_book_availability_on_return`.

Modelling conventions:
  * Timestamps are integers counting seconds; `timedelta(days=n)` is
    `n * 86400` seconds, and Python `timedelta.days` is floor division by
    86400 (`Int.fdiv`).
  * Every HTTP request is modelled as happening at a single instant `now`
    (the successive `timezone.now()` calls inside one request are identified).
  * Django model fields live in memory as plain integers, so in-memory
    values may leave the valid range; `Model.save` runs `full_clean`
    (field validators plus the custom `clean`) and persists only when the
    validation passes. A `full_clean` failure raises an exception that the
    views do not catch, producing a 500 response: `serverError` below.
  * The project configures no transactions (no `ATOMIC_REQUESTS`, no
    `transaction.atomic`), so each successful `save` commits immediately
    and persists even when a later statement of the same request raises.
  * `money` amounts are integers in currency units (the rate is 1.00 per
    day, so no sub-unit amounts ever arise).
  * Rows carry an explicit primary key `pk`; the database assigns `nextPk`
    on insert.
-/

namespace LibraryApi

/-- Seconds in a day, the unit used by Python `timedelta.days`. -/
def secondsPerDay : Int := 86400

/-- The `Book` model restricted to the fields the engine reads and writes
(`library/models.py` lines 6-67). `total_copies` and `available_copies` are
`PositiveIntegerField`s; the value held in memory is modelled as `Int`
because Python lets the views compute negative intermediate values, which
only `full_clean` then rejects. -/
structure Book where
  total_copies : Int
  available_copies : Int
  deriving Repr, DecidableEq

/-- Field validators of `Book`: `PositiveIntegerField` requires a
non-negative value for both copy counters. -/
def Book.fieldsOk (b : Book) : Bool :=
  0 ≤ b.total_copies && 0 ≤ b.available_copies

/-- `Book.clean` (`models.py` lines 43-53): available copies may not exceed
total copies, and total copies must be at least 1. -/
def Book.cleanOk (b : Book) : Bool :=
  b.available_copies ≤ b.total_copies && 1 ≤ b.total_copies

/-- `full_clean` on a `Book`: field validators plus `Book.clean`. -/
def Book.fullCleanOk (b : Book) : Bool :=
  b.fieldsOk && b.cleanOk

/-- `Book.save` (`models.py` lines 55-57): run `full_clean`, then persist.
`none` models the `ValidationError` that aborts the write. -/
def Book.save (b : Book) : Option Book :=
  if b.fullCleanOk then some b else none

/-- The `Checkout` model (`models.py` lines 106-181) restricted to the
fields the engine uses. `user` and `book` are foreign keys, modelled as
opaque numeric identifiers; `pk` is the database primary key. -/
structure Checkout where
  pk : Nat
  user : Nat
  book : Nat
  checkout_date : Int
  due_date : Option Int
  return_date : Option Int
  is_returned : Bool
  late_fee : Int
  deriving Repr, DecidableEq

/-- The queryset filter `user=u, book=b, is_returned=False`. -/
def openFor (u b : Nat) (c : Checkout) : Bool :=
  c.user == u && c.book == b && !c.is_returned

/-- The queryset filter `user=u, book=b, is_returned=True`. -/
def returnedFor (u b : Nat) (c : Checkout) : Bool :=
  c.user == u && c.book == b && c.is_returned

/-- `Checkout.objects.filter(user=u, book=b, is_returned=False).exists()`. -/
def hasOpenFor (cs : List Checkout) (u b : Nat) : Bool :=
  cs.any (openFor u b)

/-- Existence of a row matching the `unique_together` key
`(user, book, is_returned)` (`models.py` line 121). -/
def hasRowFor (cs : List Checkout) (u b : Nat) (ret : Bool) : Bool :=
  cs.any fun c => c.user == u && c.book == b && c.is_returned == ret

/-- The check `self.return_date and self.return_date < self.checkout_date`
of `Checkout.clean` (`models.py` lines 149-153). -/
def returnBeforeCheckout (c : Checkout) : Bool :=
  match c.return_date with
  | some r => decide (r < c.checkout_date)
  | none => false

/-- The first step of `Checkout.save` (`models.py` lines 156-159): default
the due date to `now + 14 days` when it is unset. -/
def Checkout.withDueDefault (now : Int) (c : Checkout) : Checkout :=
  if c.due_date.isNone then
    { c with due_date := some (now + 14 * secondsPerDay) } else c

/-- The second step of `Checkout.save` (`models.py` lines 161-164): when a
return date is present, the return is after the due date and the row is
not already marked returned, set the late fee to one currency unit per
whole day late. -/
def Checkout.withLateFee (c : Checkout) : Checkout :=
  match c.return_date, c.due_date with
  | some r, some d =>
      if d < r && !c.is_returned then
        { c with late_fee := max 0 ((r - d).fdiv secondsPerDay) }
      else c
  | _, _ => c

/-- The two rewrite steps `Checkout.save` applies before validating:
default the due date, then compute the late fee. -/
def Checkout.prepared (now : Int) (c : Checkout) : Checkout :=
  (c.withDueDefault now).withLateFee

/-- `Checkout.save` (`models.py` lines 155-167) followed by the
`full_clean` it invokes: apply the two rewrite steps of
`Checkout.prepared`, then run `Checkout.clean` (lines 132-153) and
`validate_unique` for `unique_together = [user, book, is_returned]`
(line 121). `others` is the set of persisted rows other than this one
(Django excludes `pk=self.pk`). `none` models the `ValidationError` that
aborts the write. -/
def Checkout.save (now : Int) (others : List Checkout) (c : Checkout) :
    Option Checkout :=
  if !(c.prepared now).is_returned &&
      hasOpenFor others (c.prepared now).user (c.prepared now).book then none
  else if returnBeforeCheckout (c.prepared now) then none
  else if hasRowFor others (c.prepared now).user (c.prepared now).book
      (c.prepared now).is_returned then none
  else some (c.prepared now)

/-- `Checkout.is_overdue` (`models.py` lines 169-174), with the current
time passed explicitly. -/
def Checkout.is_overdue (now : Int) (c : Checkout) : Bool :=
  if c.is_returned then false else decide (c.due_date.getD 0 < now)

/-- `Checkout.days_overdue` (`models.py` lines 176-181). -/
def Checkout.days_overdue (now : Int) (c : Checkout) : Int :=
  if !c.is_overdue now then 0 else (now - c.due_date.getD 0).fdiv secondsPerDay

/-- The persisted state the two endpoints read and write: the book table
(an association of book identifiers to rows), the checkout table, and the
next primary key the database will assign. -/
structure LibState where
  books : List (Nat × Book)
  checkouts : List Checkout
  nextPk : Nat
  deriving Repr, DecidableEq

/-- `get_object_or_404(Book, ...)`: look a book up by identifier. -/
def getBook (s : LibState) (bid : Nat) : Option Book :=
  (s.books.find? fun p => p.1 == bid).map Prod.snd

/-- Persist a book row under its identifier. -/
def setBook (s : LibState) (bid : Nat) (b : Book) : LibState :=
  { s with books := s.books.map fun p => if p.1 == bid then (p.1, b) else p }

/-- The client-visible outcome of a request to the two endpoints. -/
inductive ApiResult where
  /-- 201, body contains the created checkout. -/
  | created (c : Checkout)
  /-- 200, body contains the updated checkout. -/
  | ok (c : Checkout)
  /-- 404 from `get_object_or_404`. -/
  | notFound
  /-- 400 `No copies available`. -/
  | noCopies
  /-- 400 `Already checked out`. -/
  | alreadyCheckedOut
  /-- 400 `You did not checkout this book`. -/
  | notCheckedOut
  /-- 500: an unhandled `ValidationError` escaped the view. -/
  | serverError
  deriving Repr, DecidableEq

/-- The row `Checkout.objects.create` builds in `BookViewSet.checkout`
(`views.py` lines 154-158): both references, a fresh primary key, the
checkout date stamped by `auto_now_add`, and a due date of `now` plus 14
days passed explicitly by the view. -/
def newCheckout (pk u b : Nat) (now : Int) : Checkout :=
  { pk := pk, user := u, book := b,
    checkout_date := now, due_date := some (now + 14 * secondsPerDay),
    return_date := none, is_returned := false, late_fee := 0 }

/-- The availability bookkeeping that runs after the checkout row is
committed: first the `post_save` signal
`update_book_availability_on_checkout` (`signals.py` lines 18-26), then
the explicit `book.available_copies -= 1; book.save()` of the view
(`views.py` lines 159-160). The signal receives `instance.book`, which is
the same in-memory object the view holds (it was passed to
`Checkout.objects.create`), so the decrement by the signal and the
decrement by the view compound on one object. Each `Book.save` validates;
a failed save raises, ending the request with the effects committed so
far. -/
def checkoutBookPhase (bookId : Nat) (book : Book) (c : Checkout)
    (s1 : LibState) : ApiResult × LibState :=
  if 0 < book.available_copies then
    match Book.save { book with available_copies := book.available_copies - 1 } with
    | none => (.serverError, s1)
    | some b1v =>
      match Book.save { b1v with available_copies := b1v.available_copies - 1 } with
      | none => (.serverError, setBook s1 bookId b1v)
      | some b2v => (.created c, setBook (setBook s1 bookId b1v) bookId b2v)
  else
    match Book.save { book with available_copies := book.available_copies - 1 } with
    | none => (.serverError, s1)
    | some b2v => (.created c, setBook s1 bookId b2v)

/-- `BookViewSet.checkout` (`views.py` lines 143-163) together with its
`post_save` signals. -/
def checkoutView (now : Int) (userId bookId : Nat) (s : LibState) :
    ApiResult × LibState :=
  match getBook s bookId with
  | none => (.notFound, s)
  | some book =>
    if book.available_copies < 1 then (.noCopies, s)
    else if hasOpenFor s.checkouts userId bookId then (.alreadyCheckedOut, s)
    else
      match Checkout.save now s.checkouts (newCheckout s.nextPk userId bookId now) with
      | none => (.serverError, s)
      | some c =>
        checkoutBookPhase bookId book c
          { s with checkouts := c :: s.checkouts, nextPk := s.nextPk + 1 }

/-- The availability bookkeeping that runs after the returned row is
committed: first the `post_save` signal
`update_book_availability_on_return` (`signals.py` lines 28-36), whose
`instance.book` is fetched afresh from the database, then the explicit
`book.available_copies += 1; book.save()` of the view (`views.py` lines
178-179) on the object fetched at the start of the request. -/
def returnBookPhase (bookId : Nat) (book : Book) (c2 : Checkout)
    (s1 : LibState) : ApiResult × LibState :=
  match getBook s1 bookId with
  | none => (.serverError, s1)
  | some bdb =>
    if bdb.available_copies < bdb.total_copies then
      match Book.save { bdb with available_copies := bdb.available_copies + 1 } with
      | none => (.serverError, s1)
      | some b1v =>
        match Book.save { book with available_copies := book.available_copies + 1 } with
        | none => (.serverError, setBook s1 bookId b1v)
        | some b2v => (.ok c2, setBook (setBook s1 bookId b1v) bookId b2v)
    else
      match Book.save { book with available_copies := book.available_copies + 1 } with
      | none => (.serverError, s1)
      | some b2v => (.ok c2, setBook s1 bookId b2v)

/-- `BookViewSet.return_book` (`views.py` lines 165-182) together with its
`post_save` signals. The row to update is fetched from the database, so
`instance.book` inside the signal is a fresh object holding the stored
counter, while the view increments the object it fetched at the start of
the request. -/
def return_book (now : Int) (userId bookId : Nat) (s : LibState) :
    ApiResult × LibState :=
  match getBook s bookId with
  | none => (.notFound, s)
  | some book =>
    match s.checkouts.find? (openFor userId bookId) with
    | none => (.notCheckedOut, s)
    | some c =>
      match Checkout.save now (s.checkouts.filter fun x => x.pk ≠ c.pk)
          { c with is_returned := true, return_date := some now } with
      | none => (.serverError, s)
      | some c2 =>
        returnBookPhase bookId book c2
          { s with checkouts := s.checkouts.map fun x => if x.pk == c.pk then c2 else x }

/-- One call to either endpoint, with its request instant. -/
inductive Call where
  | checkoutCall (now : Int) (u b : Nat)
  | returnCall (now : Int) (u b : Nat)
  deriving Repr, DecidableEq

/-- The state reached after one call (the response is discarded). -/
def applyCall (s : LibState) : Call → LibState
  | .checkoutCall now u b => (checkoutView now u b s).2
  | .returnCall now u b => (return_book now u b s).2

/-- The state reached after a sequence of calls. -/
def runCalls (s : LibState) (ks : List Call) : LibState :=
  ks.foldl applyCall s


/-! ## Closed evaluations of the endpoints at concrete inputs -/

/-- C1: the claim says a successful `CreateCheckout` decrements
`available_copies` by exactly 1. Evaluating the code on a book with
`total_copies = 2, available_copies = 2` and an empty checkout table: the
request succeeds (201 with the created row), exactly one checkout row is
inserted, but the stored counter drops from 2 to 0 — the signal and the
view each decrement the same in-memory object, so the net change is 2. -/
theorem c1_checkout_decrements_by_two :
    (checkoutView 0 7 1
        { books := [(1, { total_copies := 2, available_copies := 2 })],
          checkouts := [], nextPk := 0 }) =
      (ApiResult.created
        { pk := 0, user := 7, book := 1, checkout_date := 0,
          due_date := some 1209600, return_date := none,
          is_returned := false, late_fee := 0 },
       { books := [(1, { total_copies := 2, available_copies := 0 })],
         checkouts := [{ pk := 0, user := 7, book := 1, checkout_date := 0,
                         due_date := some 1209600, return_date := none,
                         is_returned := false, late_fee := 0 }],
         nextPk := 1 }) := by
  decide

/-- C2: the claim says returning 3 days after the due date yields
`late_fee = 3.00`. Evaluating the code: checkout at time 0 (due date
`14 days = 1209600 s`), then return at `17 days = 1468800 s`. The view
sets `is_returned = True` before calling `save`, and the fee branch in
`Checkout.save` requires `not self.is_returned`, so the returned row has
`late_fee = 0`, not 3. -/
theorem c2_three_days_late_fee_is_zero :
    (return_book 1468800 7 1
        (checkoutView 0 7 1
          { books := [(1, { total_copies := 2, available_copies := 2 })],
            checkouts := [], nextPk := 0 }).2).1 =
      ApiResult.ok
        { pk := 0, user := 7, book := 1, checkout_date := 0,
          due_date := some 1209600, return_date := some 1468800,
          is_returned := true, late_fee := 0 } := by
  decide

/-- C3: the claim says a `CreateCheckout` followed by `ReturnCheckout`
restores `available_copies` to its pre-checkout value. Evaluating the
code on a book with `total_copies = 3, available_copies = 3`: after the
checkout the counter is 1 (double decrement), after the return it is 2 —
not the original 3. The row part of the claim does hold: exactly one
checkout row remains and it is marked returned. -/
theorem c3_round_trip_loses_one_copy :
    (return_book 86400 7 1
        (checkoutView 0 7 1
          { books := [(1, { total_copies := 3, available_copies := 3 })],
            checkouts := [], nextPk := 0 }).2).2 =
      { books := [(1, { total_copies := 3, available_copies := 2 })],
        checkouts := [{ pk := 0, user := 7, book := 1, checkout_date := 0,
                        due_date := some 1209600, return_date := some 86400,
                        is_returned := true, late_fee := 0 }],
        nextPk := 1 } := by
  decide

/-- C7: the claim says a failed `CreateCheckout` leaves the counter and
the checkout set unchanged. Evaluating the code on a book with
`total_copies = 1, available_copies = 1` and an empty checkout table: the
signal decrements the counter to 0 and commits, the view then computes -1
and its `save` raises, so the request fails (500) — yet the final state
holds one inserted checkout row and a counter decremented from 1 to 0.
There is no transaction, so the partial writes stay visible. -/
theorem c7_failed_checkout_not_atomic :
    (checkoutView 0 7 1
        { books := [(1, { total_copies := 1, available_copies := 1 })],
          checkouts := [], nextPk := 0 }) =
      (ApiResult.serverError,
       { books := [(1, { total_copies := 1, available_copies := 0 })],
         checkouts := [{ pk := 0, user := 7, book := 1, checkout_date := 0,
                         due_date := some 1209600, return_date := none,
                         is_returned := false, late_fee := 0 }],
         nextPk := 1 }) := by
  decide

/-- C6 counterexample: the claim says that whenever an OPEN checkout
exists for the pair, `CreateCheckout` fails with the conflict error, even
when `available_copies < 1`. In the state reached by checking the book
out once from `total = 2, available = 2` (which leaves an OPEN row for
user 7 and a stored counter of 0), a second `CreateCheckout` by the same
user answers `No copies available`, not `Already checked out`: the view
tests availability before the duplicate condition. -/
theorem c6_conflict_not_checked_first :
    (hasOpenFor
        [{ pk := 0, user := 7, book := 1, checkout_date := 0,
           due_date := some 1209600, return_date := none,
           is_returned := false, late_fee := 0 }] 7 1 = true) ∧
    (checkoutView 5 7 1
        { books := [(1, { total_copies := 2, available_copies := 0 })],
          checkouts := [{ pk := 0, user := 7, book := 1, checkout_date := 0,
                          due_date := some 1209600, return_date := none,
                          is_returned := false, late_fee := 0 }],
          nextPk := 1 }).1 = ApiResult.noCopies ∧
    (checkoutView 5 7 1
        { books := [(1, { total_copies := 2, available_copies := 0 })],
          checkouts := [{ pk := 0, user := 7, book := 1, checkout_date := 0,
                          due_date := some 1209600, return_date := none,
                          is_returned := false, late_fee := 0 }],
          nextPk := 1 }).1 ≠ ApiResult.alreadyCheckedOut := by
  refine ⟨by decide, by decide, by decide⟩

/-! ## Field bookkeeping for the two rewrite steps of `Checkout.save` -/

@[simp] theorem Checkout.withDueDefault_pk (now : Int) (c : Checkout) :
    (c.withDueDefault now).pk = c.pk := by
  unfold Checkout.withDueDefault; split <;> rfl

@[simp] theorem Checkout.withDueDefault_user (now : Int) (c : Checkout) :
    (c.withDueDefault now).user = c.user := by
  unfold Checkout.withDueDefault; split <;> rfl

@[simp] theorem Checkout.withDueDefault_book (now : Int) (c : Checkout) :
    (c.withDueDefault now).book = c.book := by
  unfold Checkout.withDueDefault; split <;> rfl

@[simp] theorem Checkout.withDueDefault_checkout_date (now : Int) (c : Checkout) :
    (c.withDueDefault now).checkout_date = c.checkout_date := by
  unfold Checkout.withDueDefault; split <;> rfl

@[simp] theorem Checkout.withDueDefault_return_date (now : Int) (c : Checkout) :
    (c.withDueDefault now).return_date = c.return_date := by
  unfold Checkout.withDueDefault; split <;> rfl

@[simp] theorem Checkout.withDueDefault_is_returned (now : Int) (c : Checkout) :
    (c.withDueDefault now).is_returned = c.is_returned := by
  unfold Checkout.withDueDefault; split <;> rfl

@[simp] theorem Checkout.withDueDefault_late_fee (now : Int) (c : Checkout) :
    (c.withDueDefault now).late_fee = c.late_fee := by
  unfold Checkout.withDueDefault; split <;> rfl

theorem Checkout.withDueDefault_due_of_some (now : Int) {c : Checkout} {d : Int}
    (h : c.due_date = some d) : (c.withDueDefault now).due_date = some d := by
  unfold Checkout.withDueDefault
  simp [h]

@[simp] theorem Checkout.withLateFee_pk (c : Checkout) :
    c.withLateFee.pk = c.pk := by
  unfold Checkout.withLateFee
  split
  · split <;> rfl
  · rfl

@[simp] theorem Checkout.withLateFee_user (c : Checkout) :
    c.withLateFee.user = c.user := by
  unfold Checkout.withLateFee
  split
  · split <;> rfl
  · rfl

@[simp] theorem Checkout.withLateFee_book (c : Checkout) :
    c.withLateFee.book = c.book := by
  unfold Checkout.withLateFee
  split
  · split <;> rfl
  · rfl

@[simp] theorem Checkout.withLateFee_checkout_date (c : Checkout) :
    c.withLateFee.checkout_date = c.checkout_date := by
  unfold Checkout.withLateFee
  split
  · split <;> rfl
  · rfl

@[simp] theorem Checkout.withLateFee_return_date (c : Checkout) :
    c.withLateFee.return_date = c.return_date := by
  unfold Checkout.withLateFee
  split
  · split <;> rfl
  · rfl

@[simp] theorem Checkout.withLateFee_is_returned (c : Checkout) :
    c.withLateFee.is_returned = c.is_returned := by
  unfold Checkout.withLateFee
  split
  · split <;> rfl
  · rfl

@[simp] theorem Checkout.withLateFee_due_date (c : Checkout) :
    c.withLateFee.due_date = c.due_date := by
  unfold Checkout.withLateFee
  split
  · split <;> rfl
  · rfl

/-! ## Decompositions of the save operations -/

theorem Book.save_some_valid {b bv : Book} (h : Book.save b = some bv) :
    bv = b ∧ b.fullCleanOk = true := by
  unfold Book.save at h
  split at h
  · exact ⟨(Option.some.inj h).symm, by assumption⟩
  · cases h

theorem Checkout.save_some_decomp {now : Int} {others : List Checkout}
    {c cv : Checkout} (h : Checkout.save now others c = some cv) :
    cv = c.prepared now ∧
    (!cv.is_returned && hasOpenFor others cv.user cv.book) = false ∧
    returnBeforeCheckout cv = false ∧
    hasRowFor others cv.user cv.book cv.is_returned = false := by
  unfold Checkout.save at h
  split at h
  · cases h
  · split at h
    · cases h
    · split at h
      · cases h
      · injection h with h2
        subst h2
        refine ⟨rfl, ?_, ?_, ?_⟩ <;> simp_all

theorem hasRowFor_false_eq (cs : List Checkout) (u b : Nat) :
    hasRowFor cs u b false = hasOpenFor cs u b := by
  unfold hasRowFor hasOpenFor openFor
  congr 1
  funext c
  cases c.is_returned <;> simp

theorem prepared_newCheckout (now : Int) (pk u b : Nat) :
    (newCheckout pk u b now).prepared now = newCheckout pk u b now := by
  unfold Checkout.prepared
  have h1 : (newCheckout pk u b now).withDueDefault now = newCheckout pk u b now := by
    unfold Checkout.withDueDefault newCheckout
    simp
  rw [h1]
  unfold Checkout.withLateFee newCheckout
  simp

theorem save_newCheckout {now : Int} {others : List Checkout} {pk u b : Nat}
    (h : hasOpenFor others u b = false) :
    Checkout.save now others (newCheckout pk u b now) =
      some (newCheckout pk u b now) := by
  unfold Checkout.save
  rw [prepared_newCheckout]
  simp only [newCheckout, returnBeforeCheckout]
  rw [hasRowFor_false_eq]
  simp [h]

/-! ## The shape of the state changes a request performs -/

/-- The chain of validated `Book.save` writes a request performs after its
checkout-row write: each step stores one book row that passed
`full_clean`. -/
inductive BookWrites (s : LibState) : LibState → Prop where
  | refl : BookWrites s s
  | step (sm : LibState) (bid : Nat) (bk : Book) (hw : BookWrites s sm)
      (hv : bk.fullCleanOk = true) : BookWrites s (setBook sm bid bk)

theorem BookWrites.checkouts_eq {s sv : LibState} (h : BookWrites s sv) :
    sv.checkouts = s.checkouts := by
  induction h with
  | refl => rfl
  | step sm bid bk hw hv ih => simpa [setBook] using ih

theorem BookWrites.nextPk_eq {s sv : LibState} (h : BookWrites s sv) :
    sv.nextPk = s.nextPk := by
  induction h with
  | refl => rfl
  | step sm bid bk hw hv ih => simpa [setBook] using ih

/-- All stored book rows pass `full_clean`. -/
def booksOk (s : LibState) : Bool :=
  s.books.all fun p => p.2.fullCleanOk

theorem booksOk_setBook {s : LibState} {bid : Nat} {bk : Book}
    (hs : booksOk s = true) (hv : bk.fullCleanOk = true) :
    booksOk (setBook s bid bk) = true := by
  unfold booksOk setBook at *
  rw [List.all_map, List.all_eq_true]
  rw [List.all_eq_true] at hs
  intro x hx
  by_cases hb : x.1 == bid <;> simp only [Function.comp, hb] <;> simp [hv, hs x hx]

theorem BookWrites.booksOk_of {s sv : LibState} (h : BookWrites s sv)
    (hs : booksOk s = true) : booksOk sv = true := by
  induction h with
  | refl => exact hs
  | step sm bid bk hw hv ih => exact booksOk_setBook ih hv

theorem checkoutBookPhase_writes (bookId : Nat) (book : Book) (c : Checkout)
    (s1 : LibState) : BookWrites s1 (checkoutBookPhase bookId book c s1).2 := by
  unfold checkoutBookPhase
  split
  · split
    · exact .refl
    · next b1v h1 =>
      obtain ⟨he, hv⟩ := Book.save_some_valid h1
      subst he
      split
      · exact .step _ _ _ .refl hv
      · next b2v h2 =>
        obtain ⟨he2, hv2⟩ := Book.save_some_valid h2
        subst he2
        exact .step _ _ _ (.step _ _ _ .refl hv) hv2
  · split
    · exact .refl
    · next b2v h2 =>
      obtain ⟨he2, hv2⟩ := Book.save_some_valid h2
      subst he2
      exact .step _ _ _ .refl hv2

theorem returnBookPhase_writes (bookId : Nat) (book : Book) (c2 : Checkout)
    (s1 : LibState) : BookWrites s1 (returnBookPhase bookId book c2 s1).2 := by
  unfold returnBookPhase
  split
  · exact .refl
  · split
    · split
      · exact .refl
      · next b1v h1 =>
        obtain ⟨he, hv⟩ := Book.save_some_valid h1
        subst he
        split
        · exact .step _ _ _ .refl hv
        · next b2v h2 =>
          obtain ⟨he2, hv2⟩ := Book.save_some_valid h2
          subst he2
          exact .step _ _ _ (.step _ _ _ .refl hv) hv2
    · split
      · exact .refl
      · next b2v h2 =>
        obtain ⟨he2, hv2⟩ := Book.save_some_valid h2
        subst he2
        exact .step _ _ _ .refl hv2

theorem checkoutBookPhase_created {bookId : Nat} {book : Book}
    {c cv : Checkout} {s1 : LibState}
    (h : (checkoutBookPhase bookId book c s1).1 = ApiResult.created cv) :
    cv = c := by
  unfold checkoutBookPhase at h
  repeat' split at h
  all_goals cases h
  all_goals rfl

theorem returnBookPhase_ok {bookId : Nat} {book : Book} {c2 cv : Checkout}
    {s1 : LibState}
    (h : (returnBookPhase bookId book c2 s1).1 = ApiResult.ok cv) :
    cv = c2 := by
  unfold returnBookPhase at h
  repeat' split at h
  all_goals cases h
  all_goals rfl

/-! ## Equations for the two endpoints, one per control-flow branch -/

theorem checkoutView_eq_notFound {now : Int} {u b : Nat} {s : LibState}
    (hb : getBook s b = none) : checkoutView now u b s = (.notFound, s) := by
  unfold checkoutView
  rw [hb]

theorem checkoutView_eq_noCopies {now : Int} {u b : Nat} {s : LibState}
    {book : Book} (hb : getBook s b = some book)
    (h1 : book.available_copies < 1) :
    checkoutView now u b s = (.noCopies, s) := by
  unfold checkoutView
  rw [hb]
  simp [h1]

theorem checkoutView_eq_conflict {now : Int} {u b : Nat} {s : LibState}
    {book : Book} (hb : getBook s b = some book)
    (h1 : ¬book.available_copies < 1) (h2 : hasOpenFor s.checkouts u b = true) :
    checkoutView now u b s = (.alreadyCheckedOut, s) := by
  unfold checkoutView
  rw [hb]
  simp [h1, h2]

theorem checkoutView_eq_phase {now : Int} {u b : Nat} {s : LibState}
    {book : Book} (hb : getBook s b = some book)
    (h1 : ¬book.available_copies < 1) (h2 : hasOpenFor s.checkouts u b = false) :
    checkoutView now u b s =
      checkoutBookPhase b book (newCheckout s.nextPk u b now)
        { s with checkouts := newCheckout s.nextPk u b now :: s.checkouts,
                 nextPk := s.nextPk + 1 } := by
  unfold checkoutView
  rw [hb]
  simp only [h1, if_false, h2, Bool.false_eq_true, if_neg, ite_false]
  rw [save_newCheckout h2]

theorem return_book_eq_notFound {now : Int} {u b : Nat} {s : LibState}
    (hb : getBook s b = none) : return_book now u b s = (.notFound, s) := by
  unfold return_book
  rw [hb]

theorem return_book_eq_notCheckedOut {now : Int} {u b : Nat} {s : LibState}
    {book : Book} (hb : getBook s b = some book)
    (hf : s.checkouts.find? (openFor u b) = none) :
    return_book now u b s = (.notCheckedOut, s) := by
  unfold return_book
  rw [hb]
  simp [hf]

theorem return_book_eq_saveFail {now : Int} {u b : Nat} {s : LibState}
    {book : Book} {c : Checkout} (hb : getBook s b = some book)
    (hf : s.checkouts.find? (openFor u b) = some c)
    (hs : Checkout.save now (s.checkouts.filter fun x => x.pk ≠ c.pk)
        { c with is_returned := true, return_date := some now } = none) :
    return_book now u b s = (.serverError, s) := by
  unfold return_book
  rw [hb]
  simp only [hf]
  rw [hs]

theorem return_book_eq_phase {now : Int} {u b : Nat} {s : LibState}
    {book : Book} {c c2 : Checkout} (hb : getBook s b = some book)
    (hf : s.checkouts.find? (openFor u b) = some c)
    (hs : Checkout.save now (s.checkouts.filter fun x => x.pk ≠ c.pk)
        { c with is_returned := true, return_date := some now } = some c2) :
    return_book now u b s =
      returnBookPhase b book c2
        { s with checkouts :=
            s.checkouts.map fun x => if x.pk == c.pk then c2 else x } := by
  unfold return_book
  rw [hb]
  simp only [hf]
  rw [hs]

/-! ## State characterizations of the two endpoints -/

/-- Either a checkout request leaves the state unchanged, or (when no OPEN
row exists for the pair) it inserts the new row, bumps the key counter and
then performs only validated book writes. -/
theorem checkoutView_state (now : Int) (u b : Nat) (s : LibState) :
    (checkoutView now u b s).2 = s ∨
    (hasOpenFor s.checkouts u b = false ∧
      BookWrites
        { s with checkouts := newCheckout s.nextPk u b now :: s.checkouts,
                 nextPk := s.nextPk + 1 }
        (checkoutView now u b s).2) := by
  cases hb : getBook s b with
  | none => rw [checkoutView_eq_notFound hb]; left; rfl
  | some book =>
    by_cases h1 : book.available_copies < 1
    · rw [checkoutView_eq_noCopies hb h1]; left; rfl
    · by_cases h2 : hasOpenFor s.checkouts u b = true
      · rw [checkoutView_eq_conflict hb h1 h2]; left; rfl
      · have h2f : hasOpenFor s.checkouts u b = false := by simpa using h2
        rw [checkoutView_eq_phase hb h1 h2f]
        right
        exact ⟨h2f, checkoutBookPhase_writes b book (newCheckout s.nextPk u b now) _⟩

/-- Either a return request leaves the state unchanged, or it rewrites the
found OPEN row for the pair into a returned row with the same primary key
(no other returned row for the pair existing among the other rows) and
then performs only validated book writes. -/
theorem return_book_state (now : Int) (u b : Nat) (s : LibState) :
    (return_book now u b s).2 = s ∨
    ∃ c c2 : Checkout,
      s.checkouts.find? (openFor u b) = some c ∧
      c2.pk = c.pk ∧ c2.user = u ∧ c2.book = b ∧ c2.is_returned = true ∧
      hasRowFor (s.checkouts.filter fun x => x.pk ≠ c.pk) u b true = false ∧
      BookWrites
        { s with checkouts :=
            s.checkouts.map fun x => if x.pk == c.pk then c2 else x }
        (return_book now u b s).2 := by
  cases hb : getBook s b with
  | none => rw [return_book_eq_notFound hb]; left; rfl
  | some book =>
    cases hf : s.checkouts.find? (openFor u b) with
    | none => rw [return_book_eq_notCheckedOut hb hf]; left; rfl
    | some c =>
      cases hs : Checkout.save now (s.checkouts.filter fun x => x.pk ≠ c.pk)
          { c with is_returned := true, return_date := some now } with
      | none => rw [return_book_eq_saveFail hb hf hs]; left; rfl
      | some c2 =>
        rw [return_book_eq_phase hb hf hs]
        right
        have hp := List.find?_some hf
        simp only [openFor, Bool.and_eq_true, beq_iff_eq] at hp
        obtain ⟨he, hclean, hrbc, huniq⟩ := Checkout.save_some_decomp hs
        have hpk : c2.pk = c.pk := by
          rw [he]; simp [Checkout.prepared]
        have hu : c2.user = u := by
          rw [he]; simp [Checkout.prepared, hp.1.1]
        have hb2 : c2.book = b := by
          rw [he]; simp [Checkout.prepared, hp.1.2]
        have hret : c2.is_returned = true := by
          rw [he]; simp [Checkout.prepared]
        refine ⟨c, c2, rfl, hpk, hu, hb2, hret, ?_, ?_⟩
        · rw [hu, hb2, hret] at huniq
          exact huniq
        · exact returnBookPhase_writes b book c2 _

/-! ## Counter invariants over call sequences -/

/-- Number of OPEN checkout rows stored for a (member, book) pair. -/
def openCount (s : LibState) (u b : Nat) : Nat :=
  s.checkouts.countP (openFor u b)

/-- Number of returned checkout rows stored for a (member, book) pair. -/
def returnedCount (s : LibState) (u b : Nat) : Nat :=
  s.checkouts.countP (returnedFor u b)

theorem countP_eq_zero_of_any_false {l : List Checkout} {p : Checkout → Bool}
    (h : l.any p = false) : l.countP p = 0 := by
  rw [List.countP_eq_zero]
  intro a ha hpa
  have hcontra := List.any_eq_true.mpr ⟨a, ha, hpa⟩
  rw [h] at hcontra
  cases hcontra

theorem countP_cons_le_one {l : List Checkout} {p : Checkout → Bool}
    {c : Checkout} (hl : l.countP p ≤ 1) (hc : p c = true → l.countP p = 0) :
    (c :: l).countP p ≤ 1 := by
  rw [List.countP_cons]
  by_cases h : p c
  · rw [hc h]; simp [h]
  · simp [h, hl]

theorem runCalls_preserve {P : LibState → Prop}
    (hstep : ∀ s k, P s → P (applyCall s k)) :
    ∀ (ks : List Call) (s : LibState), P s → P (runCalls s ks) := by
  intro ks
  induction ks with
  | nil => intro s h; simpa [runCalls] using h
  | cons k t ih => intro s h; exact ih _ (hstep s k h)

theorem openCount_le_one_applyCall {s : LibState} (k : Call)
    (h : ∀ u b, openCount s u b ≤ 1) :
    ∀ u b, openCount (applyCall s k) u b ≤ 1 := by
  cases k with
  | checkoutCall now u b =>
    rcases checkoutView_state now u b s with he | ⟨hopen, hw⟩
    · intro u1 b1
      simp only [applyCall]
      rw [he]
      exact h u1 b1
    · intro u1 b1
      simp only [applyCall, openCount]
      rw [hw.checkouts_eq]
      apply countP_cons_le_one (h u1 b1)
      intro hpc
      have hub : u = u1 ∧ b = b1 := by
        simpa [openFor, newCheckout] using hpc
      obtain ⟨rfl, rfl⟩ := hub
      exact countP_eq_zero_of_any_false hopen
  | returnCall now u b =>
    rcases return_book_state now u b s with he |
      ⟨c, c2, hf, hpk, hu, hb2, hret, huniq, hw⟩
    · intro u1 b1
      simp only [applyCall]
      rw [he]
      exact h u1 b1
    · intro u1 b1
      simp only [applyCall, openCount]
      rw [hw.checkouts_eq]
      rw [List.countP_map]
      refine le_trans (List.countP_mono_left ?_) (h u1 b1)
      intro x hx hpx
      have hpx2 : openFor u1 b1 (if (x.pk == c.pk) = true then c2 else x) = true := hpx
      by_cases hxc : (x.pk == c.pk) = true
      · rw [if_pos hxc] at hpx2
        simp [openFor, hret] at hpx2
      · rw [if_neg hxc] at hpx2
        exact hpx2

theorem booksOk_applyCall {s : LibState} (k : Call) (h : booksOk s = true) :
    booksOk (applyCall s k) = true := by
  cases k with
  | checkoutCall now u b =>
    rcases checkoutView_state now u b s with he | ⟨hopen, hw⟩
    · simp only [applyCall]; rw [he]; exact h
    · exact hw.booksOk_of h
  | returnCall now u b =>
    rcases return_book_state now u b s with he |
      ⟨c, c2, hf, hpk, hu, hb2, hret, huniq, hw⟩
    · simp only [applyCall]; rw [he]; exact h
    · exact hw.booksOk_of h

theorem booksOk_runCalls (s : LibState) (ks : List Call)
    (h : booksOk s = true) : booksOk (runCalls s ks) = true :=
  runCalls_preserve (P := fun x => booksOk x = true)
    (fun _ k hs => booksOk_applyCall k hs) ks s h

theorem getBook_fullClean {s : LibState} {bid : Nat} {bk : Book}
    (h : booksOk s = true) (hg : getBook s bid = some bk) :
    bk.fullCleanOk = true := by
  unfold getBook at hg
  cases hf : s.books.find? (fun p => p.1 == bid) with
  | none => rw [hf] at hg; cases hg
  | some pr =>
    rw [hf] at hg
    have hm := List.mem_of_find?_eq_some hf
    have hall := List.all_eq_true.mp h pr hm
    injection hg with hg
    rw [← hg]
    simpa using hall

/-- C4: starting from a state whose stored books are all valid, after any
sequence of checkout/return calls (hence after every prefix of any
sequence) every stored book satisfies
`0 ≤ available_copies ≤ total_copies`. Every book write the two endpoints
perform goes through `Book.save`, whose `full_clean` rejects any row
outside this range, so the range is maintained even by requests that fail
midway. -/
theorem c4_copy_range_preserved (s : LibState) (ks : List Call)
    (h : booksOk s = true) (bid : Nat) (bk : Book)
    (hg : getBook (runCalls s ks) bid = some bk) :
    0 ≤ bk.available_copies ∧ bk.available_copies ≤ bk.total_copies := by
  have hv := getBook_fullClean (booksOk_runCalls s ks h) hg
  simp only [Book.fullCleanOk, Book.fieldsOk, Book.cleanOk, Bool.and_eq_true,
    decide_eq_true_eq] at hv
  exact ⟨hv.1.2, hv.2.1⟩

/-- Witness for C4: runs a checkout call against a concrete two-copy book
and reads back the stored row. -/
theorem c4_witness :
    0 ≤ (Book.mk 2 0).available_copies ∧
      (Book.mk 2 0).available_copies ≤ (Book.mk 2 0).total_copies :=
  c4_copy_range_preserved
    { books := [(1, { total_copies := 2, available_copies := 2 })],
      checkouts := [], nextPk := 0 }
    [Call.checkoutCall 0 7 1] (by decide) 1
    { total_copies := 2, available_copies := 0 } (by decide)

/-- C5: if every (member, book) pair has at most one OPEN checkout row,
this stays true after any sequence of checkout/return calls; moreover, in
a state where an OPEN row exists for a pair, a `CreateCheckout` for that
pair is rejected: it never answers 201 and leaves the state unchanged. -/
theorem c5_at_most_one_open (s : LibState) (ks : List Call) (now : Int)
    (u b : Nat) (h : ∀ u1 b1, openCount s u1 b1 ≤ 1) :
    (∀ u1 b1, openCount (runCalls s ks) u1 b1 ≤ 1) ∧
    (hasOpenFor s.checkouts u b = true →
      (∀ c, (checkoutView now u b s).1 ≠ ApiResult.created c) ∧
      (checkoutView now u b s).2 = s) := by
  constructor
  · exact runCalls_preserve (P := fun x => ∀ u1 b1, openCount x u1 b1 ≤ 1)
      (fun _ k hs => openCount_le_one_applyCall k hs) ks s h
  · intro hopen
    cases hb : getBook s b with
    | none =>
      rw [checkoutView_eq_notFound hb]
      exact ⟨fun c hc => (by cases hc), rfl⟩
    | some book =>
      by_cases h1 : book.available_copies < 1
      · rw [checkoutView_eq_noCopies hb h1]
        exact ⟨fun c hc => (by cases hc), rfl⟩
      · rw [checkoutView_eq_conflict hb h1 hopen]
        exact ⟨fun c hc => (by cases hc), rfl⟩

/-- The concrete state used by the C5 witness: one OPEN row for the pair
(user 7, book 1). -/
def c5State : LibState :=
  { books := [(1, { total_copies := 3, available_copies := 3 })],
    checkouts := [{ pk := 0, user := 7, book := 1, checkout_date := 0,
                    due_date := some 1209600, return_date := none,
                    is_returned := false, late_fee := 0 }],
    nextPk := 1 }

/-- Witness for C5: the invariant persists through a further checkout
call, and a duplicate checkout attempt is rejected with the state
unchanged. -/
theorem c5_witness :
    openCount (runCalls c5State [Call.checkoutCall 5 7 1]) 7 1 ≤ 1 ∧
    (checkoutView 5 7 1 c5State).2 = c5State := by
  have h0 : ∀ u1 b1, openCount c5State u1 b1 ≤ 1 :=
    fun u1 b1 => le_trans (List.countP_le_length (openFor u1 b1)) (by decide)
  exact ⟨(c5_at_most_one_open c5State [Call.checkoutCall 5 7 1] 5 7 1 h0).1 7 1,
    ((c5_at_most_one_open c5State [Call.checkoutCall 5 7 1] 5 7 1 h0).2
      (by decide)).2⟩

/-! ## Uniqueness of returned rows per pair (the unique_together key) -/

theorem countP_le_add {l : List Checkout} {p q r : Checkout → Bool}
    (h : ∀ x ∈ l, p x = true → q x = true ∨ r x = true) :
    l.countP p ≤ l.countP q + l.countP r := by
  induction l with
  | nil => simp
  | cons a t ih =>
    simp only [List.countP_cons]
    have ht := ih fun x hx => h x (List.mem_cons_of_mem a hx)
    by_cases hp : p a = true
    · rcases h a (List.mem_cons_self a t) hp with hq | hr
      · simp [hp, hq]
        omega
      · simp [hp, hr]
        omega
    · simp [hp]
      omega

theorem countP_pk_le_one {l : List Checkout}
    (hn : (l.map fun c => c.pk).Nodup) (k : Nat) :
    l.countP (fun x => x.pk == k) ≤ 1 := by
  induction l with
  | nil => simp
  | cons a t ih =>
    rw [List.map_cons, List.nodup_cons] at hn
    obtain ⟨hna, hnt⟩ := hn
    rw [List.countP_cons]
    by_cases hp : (a.pk == k) = true
    · have h0 : t.countP (fun x => x.pk == k) = 0 := by
        rw [List.countP_eq_zero]
        intro x hx hxk
        apply hna
        have hxe : x.pk = k := by simpa using hxk
        have hae : a.pk = k := by simpa using hp
        exact List.mem_map.mpr ⟨x, hx, by rw [hxe, hae]⟩
      simp [hp, h0]
    · simp only [hp, if_false]
      simpa using ih hnt

theorem pk_inj_of_nodup {l : List Checkout}
    (hn : (l.map fun c => c.pk).Nodup) {x y : Checkout}
    (hx : x ∈ l) (hy : y ∈ l) (hpk : x.pk = y.pk) : x = y := by
  induction l with
  | nil => cases hx
  | cons a t ih =>
    rw [List.map_cons, List.nodup_cons] at hn
    obtain ⟨hna, hnt⟩ := hn
    rcases List.mem_cons.mp hx with rfl | hx2
    · rcases List.mem_cons.mp hy with rfl | hy2
      · rfl
      · exact absurd (List.mem_map.mpr ⟨y, hy2, hpk.symm⟩) hna
    · rcases List.mem_cons.mp hy with rfl | hy2
      · exact absurd (List.mem_map.mpr ⟨x, hx2, hpk⟩) hna
      · exact ih hnt hx2 hy2

theorem map_pk_replace (l : List Checkout) {k : Nat} {c2 : Checkout}
    (h2 : c2.pk = k) :
    ((l.map fun x => if x.pk == k then c2 else x).map fun c => c.pk) =
      l.map fun c => c.pk := by
  rw [List.map_map]
  apply List.map_congr_left
  intro x hx
  by_cases hp : (x.pk == k) = true
  · have hxe : x.pk = k := by simpa using hp
    simp [Function.comp, hp, h2, hxe]
  · simp [Function.comp, hp]

/-- The row-level well-formedness the database maintains: primary keys are
below the next key to assign, primary keys are pairwise distinct, and each
(member, book) pair has at most one returned row — the `unique_together`
constraint restricted to `is_returned = true`. -/
def RowsWf (s : LibState) : Prop :=
  (∀ c ∈ s.checkouts, c.pk < s.nextPk) ∧
  (s.checkouts.map fun c => c.pk).Nodup ∧
  (∀ u b, returnedCount s u b ≤ 1)

theorem rowsWf_applyCall {s : LibState} (k : Call) (h : RowsWf s) :
    RowsWf (applyCall s k) := by
  obtain ⟨hfresh, hnodup, hret⟩ := h
  cases k with
  | checkoutCall now u b =>
    rcases checkoutView_state now u b s with he | ⟨hopen, hw⟩
    · simp only [applyCall]
      rw [he]
      exact ⟨hfresh, hnodup, hret⟩
    · simp only [applyCall]
      have hck := hw.checkouts_eq
      have hpk := hw.nextPk_eq
      refine ⟨?_, ?_, ?_⟩
      · intro c hc
        rw [hck] at hc
        rw [hpk]
        rcases List.mem_cons.mp hc with rfl | hc2
        · simp [newCheckout]
        · exact Nat.lt_succ_of_lt (hfresh c hc2)
      · rw [hck, List.map_cons, List.nodup_cons]
        refine ⟨?_, hnodup⟩
        intro hmem
        rcases List.mem_map.mp hmem with ⟨x, hx, hxe⟩
        have hlt := hfresh x hx
        rw [hxe] at hlt
        simp [newCheckout] at hlt
      · intro u1 b1
        unfold returnedCount
        rw [hck, List.countP_cons]
        have hzero : returnedFor u1 b1 (newCheckout s.nextPk u b now) = false := by
          simp [returnedFor, newCheckout]
        rw [hzero]
        simpa using hret u1 b1
  | returnCall now u b =>
    rcases return_book_state now u b s with he |
      ⟨c, c2, hf, hpk2, hu, hb2, hret2, huniq, hw⟩
    · simp only [applyCall]
      rw [he]
      exact ⟨hfresh, hnodup, hret⟩
    · simp only [applyCall]
      have hck := hw.checkouts_eq
      have hnp := hw.nextPk_eq
      have hmap := map_pk_replace s.checkouts hpk2
      refine ⟨?_, ?_, ?_⟩
      · intro x hx
        rw [hck] at hx
        rw [hnp]
        rcases List.mem_map.mp hx with ⟨y, hy, hye⟩
        have hype : x.pk = y.pk := by
          rw [← hye]
          by_cases hp : (y.pk == c.pk) = true
          · have hyc : y.pk = c.pk := by simpa using hp
            simp [hp, hpk2, hyc]
          · simp [hp]
        rw [hype]
        exact hfresh y hy
      · rw [hck, hmap]
        exact hnodup
      · intro u1 b1
        unfold returnedCount
        rw [hck, List.countP_map]
        by_cases hpair : u1 = u ∧ b1 = b
        · obtain ⟨rfl, rfl⟩ := hpair
          have hsplit : s.checkouts.countP
                ((returnedFor u1 b1) ∘ fun x => if x.pk == c.pk then c2 else x) ≤
              s.checkouts.countP (fun x => x.pk == c.pk) +
              s.checkouts.countP
                (fun x => !(x.pk == c.pk) && returnedFor u1 b1 x) := by
            apply countP_le_add
            intro x hx hpx
            by_cases hp : (x.pk == c.pk) = true
            · exact Or.inl hp
            · right
              have hq : returnedFor u1 b1
                  (if (x.pk == c.pk) = true then c2 else x) = true := hpx
              rw [if_neg hp] at hq
              simp [hp, hq]
          have hone := countP_pk_le_one hnodup c.pk
          have hzero : s.checkouts.countP
              (fun x => !(x.pk == c.pk) && returnedFor u1 b1 x) = 0 := by
            rw [List.countP_eq_zero]
            intro x hx hpx
            rw [Bool.and_eq_true] at hpx
            obtain ⟨hp1, hp2⟩ := hpx
            have hpne : x.pk ≠ c.pk := by
              intro he
              rw [he] at hp1
              simp at hp1
            have hxf : x ∈ s.checkouts.filter fun y => y.pk ≠ c.pk :=
              List.mem_filter.mpr ⟨hx, by simpa using hpne⟩
            simp only [returnedFor, Bool.and_eq_true] at hp2
            have hpred : (x.user == u1 && x.book == b1 &&
                (x.is_returned == true)) = true := by
              simp [hp2.1.1, hp2.1.2, hp2.2]
            have hany : hasRowFor
                (s.checkouts.filter fun y => y.pk ≠ c.pk) u1 b1 true = true :=
              List.any_eq_true.mpr ⟨x, hxf, hpred⟩
            rw [huniq] at hany
            cases hany
          omega
        · refine le_trans (List.countP_mono_left ?_) (hret u1 b1)
          intro x hx hpx
          have hq : returnedFor u1 b1
              (if (x.pk == c.pk) = true then c2 else x) = true := hpx
          by_cases hp : (x.pk == c.pk) = true
          · rw [if_pos hp] at hq
            exfalso
            simp only [returnedFor, hu, hb2, hret2, Bool.and_eq_true,
              beq_iff_eq] at hq
            exact hpair ⟨hq.1.1.symm, hq.1.2.symm⟩
          · rwa [if_neg hp] at hq

theorem Checkout.save_none_of_unique {now : Int} {others : List Checkout}
    {c1 : Checkout} (h1 : (c1.prepared now).is_returned = true)
    (h2 : hasRowFor others (c1.prepared now).user (c1.prepared now).book
      true = true) :
    Checkout.save now others c1 = none := by
  unfold Checkout.save
  rw [h1]
  rw [if_neg (by simp)]
  by_cases hrbc : returnBeforeCheckout (c1.prepared now) = true
  · rw [if_pos hrbc]
  · rw [if_neg hrbc, if_pos h2]

theorem returnedCount_le_of_returned_rows {l : List Checkout}
    (h : l.countP (fun c => c.is_returned) ≤ 1) (u b : Nat) :
    l.countP (returnedFor u b) ≤ 1 := by
  refine le_trans (List.countP_mono_left ?_) h
  intro x hx hp
  simp only [returnedFor, Bool.and_eq_true] at hp
  exact hp.2

/-- C9: in every state whose rows are database-well-formed (distinct fresh
primary keys, at most one returned row per pair), any sequence of calls
maintains that each (member, book) pair has at most one returned row; and
whenever a pair already holds a returned row and an OPEN row, the attempt
to return the OPEN row fails with a 500: `Checkout.save` runs
`validate_unique` over `unique_together = [user, book, is_returned]` and
finds the existing `(user, book, True)` row, so a pair can never complete
a second checkout-and-return cycle. -/
theorem c9_single_return_cycle (s : LibState) (ks : List Call)
    (h : RowsWf s) :
    (∀ u b, returnedCount (runCalls s ks) u b ≤ 1) ∧
    (∀ (now : Int) (u b : Nat) (book : Book) (c y : Checkout),
      getBook s b = some book →
      s.checkouts.find? (openFor u b) = some c →
      y ∈ s.checkouts → returnedFor u b y = true →
      return_book now u b s = (ApiResult.serverError, s)) := by
  constructor
  · exact (runCalls_preserve (P := RowsWf)
      (fun _ k hs => rowsWf_applyCall k hs) ks s h).2.2
  · intro now u b book c y hb hf hy hyret
    obtain ⟨hfresh, hnodup, hret⟩ := h
    have hc_mem := List.mem_of_find?_eq_some hf
    have hc_p := List.find?_some hf
    simp only [openFor, Bool.and_eq_true, beq_iff_eq] at hc_p
    have hco : c.is_returned = false := by
      simpa using hc_p.2
    simp only [returnedFor, Bool.and_eq_true, beq_iff_eq] at hyret
    have hyc : y ≠ c := by
      intro he
      rw [he, hco] at hyret
      simp at hyret
    have hypk : y.pk ≠ c.pk := fun he => hyc (pk_inj_of_nodup hnodup hy hc_mem he)
    have hyf : y ∈ s.checkouts.filter fun x => x.pk ≠ c.pk :=
      List.mem_filter.mpr ⟨hy, by simpa using hypk⟩
    have hdup : hasRowFor (s.checkouts.filter fun x => x.pk ≠ c.pk)
        u b true = true :=
      List.any_eq_true.mpr ⟨y, hyf, by simp [hyret.1.1, hyret.1.2, hyret.2]⟩
    have hsave : Checkout.save now (s.checkouts.filter fun x => x.pk ≠ c.pk)
        { c with is_returned := true, return_date := some now } = none := by
      apply Checkout.save_none_of_unique
      · simp [Checkout.prepared]
      · have e1 : (Checkout.prepared now
            { c with is_returned := true, return_date := some now }).user = u := by
          simp [Checkout.prepared, hc_p.1.1]
        have e2 : (Checkout.prepared now
            { c with is_returned := true, return_date := some now }).book = b := by
          simp [Checkout.prepared, hc_p.1.2]
        rw [e1, e2]
        exact hdup
    exact return_book_eq_saveFail hb hf hsave

/-- The concrete state used by the C9 witness: the pair (7, 1) holds one
returned row (a completed first cycle) and one OPEN row (a second
checkout). -/
def c9State : LibState :=
  { books := [(1, { total_copies := 3, available_copies := 2 })],
    checkouts :=
      [{ pk := 1, user := 7, book := 1, checkout_date := 20,
         due_date := some 1209620, return_date := none,
         is_returned := false, late_fee := 0 },
       { pk := 0, user := 7, book := 1, checkout_date := 0,
         due_date := some 1209600, return_date := some 10,
         is_returned := true, late_fee := 0 }],
    nextPk := 2 }

/-- Witness for C9: in `c9State` the returned-row invariant persists under
a further return call, and the attempt to return the second checkout fails
with a 500 leaving the state unchanged. -/
theorem c9_witness :
    returnedCount (runCalls c9State [Call.returnCall 30 7 1]) 7 1 ≤ 1 ∧
    return_book 30 7 1 c9State = (ApiResult.serverError, c9State) := by
  have hwf : RowsWf c9State :=
    ⟨by decide, by decide,
     fun u b => returnedCount_le_of_returned_rows (by decide) u b⟩
  refine ⟨(c9_single_return_cycle c9State [Call.returnCall 30 7 1] hwf).1 7 1, ?_⟩
  exact (c9_single_return_cycle c9State [] hwf).2 30 7 1
    { total_copies := 3, available_copies := 2 }
    { pk := 1, user := 7, book := 1, checkout_date := 20,
      due_date := some 1209620, return_date := none,
      is_returned := false, late_fee := 0 }
    { pk := 0, user := 7, book := 1, checkout_date := 0,
      due_date := some 1209600, return_date := some 10,
      is_returned := true, late_fee := 0 }
    (by decide) (by decide) (by decide) (by decide)

/-- C8: every successful `CreateCheckout` answers 201 with a checkout
whose due date equals its checkout date plus exactly 14 days. The view
passes `timezone.now() + timedelta(days=14)` explicitly and
`auto_now_add` stamps `checkout_date`; the request is modelled at a single
instant, which identifies the two `timezone.now()` readings of one
request. The caller can never supply a due date: the endpoint ignores the
request body. -/
theorem c8_due_date_default (now : Int) (u b : Nat) (s : LibState)
    (c : Checkout) (h : (checkoutView now u b s).1 = ApiResult.created c) :
    c.due_date = some (c.checkout_date + 14 * secondsPerDay) := by
  cases hb : getBook s b with
  | none => rw [checkoutView_eq_notFound hb] at h; cases h
  | some book =>
    by_cases h1 : book.available_copies < 1
    · rw [checkoutView_eq_noCopies hb h1] at h; cases h
    · by_cases h2 : hasOpenFor s.checkouts u b = true
      · rw [checkoutView_eq_conflict hb h1 h2] at h; cases h
      · have h2f : hasOpenFor s.checkouts u b = false := by simpa using h2
        rw [checkoutView_eq_phase hb h1 h2f] at h
        have he := checkoutBookPhase_created h
        rw [he]
        rfl

/-- Witness for C8: the checkout created at instant 0 carries due date
1209600 s = 14 days after its checkout date 0. -/
theorem c8_witness :
    ({ pk := 0, user := 7, book := 1, checkout_date := 0,
       due_date := some 1209600, return_date := none,
       is_returned := false, late_fee := 0 } : Checkout).due_date =
      some (({ pk := 0, user := 7, book := 1, checkout_date := 0,
               due_date := some 1209600, return_date := none,
               is_returned := false, late_fee := 0 } : Checkout).checkout_date +
        14 * secondsPerDay) :=
  c8_due_date_default 0 7 1
    { books := [(1, { total_copies := 2, available_copies := 2 })],
      checkouts := [], nextPk := 0 }
    { pk := 0, user := 7, book := 1, checkout_date := 0,
      due_date := some 1209600, return_date := none,
      is_returned := false, late_fee := 0 }
    (by decide)

/-- C10: the late-fee computation of `Checkout.save` uses the whole-day
part of `return_date - due_date` (`timedelta.days`), so a row saved with a
return date later than the due date by less than one full day gets
`late_fee = 0` — even though `is_overdue` at the moment of return (the row
still unreturned) reports `true`. -/
theorem c10_subday_lateness_fee_zero (now d r : Int) (others : List Checkout)
    (c cv : Checkout) (hd : c.due_date = some d) (hr : c.return_date = some r)
    (hopen : c.is_returned = false) (h1 : d < r) (h2 : r - d < secondsPerDay)
    (hs : Checkout.save now others c = some cv) :
    cv.late_fee = 0 ∧ c.is_overdue r = true := by
  obtain ⟨he, hx1, hx2, hx3⟩ := Checkout.save_some_decomp hs
  constructor
  · rw [he]
    unfold Checkout.prepared
    have hdd : c.withDueDefault now = c := by
      unfold Checkout.withDueDefault
      simp [hd]
    rw [hdd]
    unfold Checkout.withLateFee
    have hfd : (r - d).fdiv secondsPerDay = 0 := by
      rw [Int.fdiv_eq_ediv _ (by norm_num [secondsPerDay])]
      exact Int.ediv_eq_zero_of_lt (by omega) h2
    simp only [hr, hd]
    simp [h1, hopen, hfd]
  · simp [Checkout.is_overdue, hopen, hd, h1]

/-- Witness for C10: due at instant 0, returned at instant 100 (one
hundred seconds late): the saved row keeps `late_fee = 0`, while
`is_overdue` at instant 100 holds. -/
theorem c10_witness :
    ({ pk := 0, user := 1, book := 1, checkout_date := 0, due_date := some 0,
       return_date := some 100, is_returned := false,
       late_fee := 0 } : Checkout).late_fee = 0 ∧
    Checkout.is_overdue 100
      { pk := 0, user := 1, book := 1, checkout_date := 0, due_date := some 0,
        return_date := some 100, is_returned := false, late_fee := 5 } = true :=
  c10_subday_lateness_fee_zero 0 0 100 []
    { pk := 0, user := 1, book := 1, checkout_date := 0, due_date := some 0,
      return_date := some 100, is_returned := false, late_fee := 5 }
    { pk := 0, user := 1, book := 1, checkout_date := 0, due_date := some 0,
      return_date := some 100, is_returned := false, late_fee := 0 }
    rfl rfl rfl (by decide) (by decide) (by decide)

/-- C6 amended: `BookViewSet.checkout` tests availability before the
duplicate-checkout condition. Whenever the stored book has
`available_copies < 1` the request fails with `No copies available`, even
when an OPEN checkout exists for the pair; `Already checked out` is
answered only when `available_copies ≥ 1` and an OPEN checkout exists.
Both failures leave the state unchanged. -/
theorem c6_availability_checked_first (now : Int) (u b : Nat) (s : LibState)
    (book : Book) (hb : getBook s b = some book) :
    (book.available_copies < 1 →
      checkoutView now u b s = (ApiResult.noCopies, s)) ∧
    (¬book.available_copies < 1 → hasOpenFor s.checkouts u b = true →
      checkoutView now u b s = (ApiResult.alreadyCheckedOut, s)) :=
  ⟨fun h1 => checkoutView_eq_noCopies hb h1,
   fun h1 h2 => checkoutView_eq_conflict hb h1 h2⟩

/-- The concrete state used by the C6 witness: an OPEN row for (7, 1) and
a stored counter of 0, reached by one checkout from two available
copies. -/
def c6State : LibState :=
  { books := [(1, { total_copies := 2, available_copies := 0 })],
    checkouts := [{ pk := 0, user := 7, book := 1, checkout_date := 0,
                    due_date := some 1209600, return_date := none,
                    is_returned := false, late_fee := 0 }],
    nextPk := 1 }

/-- Witness for C6: with the pair already holding an OPEN row but no
copies available, the endpoint answers `No copies available` and the state
is unchanged. -/
theorem c6_amended_witness :
    checkoutView 5 7 1 c6State = (ApiResult.noCopies, c6State) :=
  (c6_availability_checked_first 5 7 1 c6State
    { total_copies := 2, available_copies := 0 } (by decide)).1 (by decide)

end LibraryApi
